import Mathlib

/-!
Shallow embedding of `statsheet-dumper` (src/main.rs), a four-tier
fetch-and-persist pipeline over a remote JSON API.  Pure data flow is
modelled directly; network responses are supplied by an explicit oracle;
the concurrent fan-out blocks are linearised (batch branches in list
order, then the game-write branch), which preserves the request counts,
the dependency order and the set of writes that the claims are about.
-/

set_option autoImplicit false

namespace StatsheetDumper

/-- JSON values, as `serde_json::Value` restricted to what the pipeline
carries around (numbers modelled as integers). -/
inductive Json where
  | null : Json
  | bool (b : Bool) : Json
  | num (n : Int) : Json
  | str (s : String) : Json
  | arr (xs : List Json) : Json
  | obj (fields : List (String × Json)) : Json

/-- `GameUpdate` from src/main.rs: declared fields `id`, `statsheet`,
`awayTeam`, `homeTeam` (camelCase on the wire) plus the
`#[serde(flatten)] extra` map of passthrough fields, modelled as an
association list in iteration order. -/
structure GameUpdate where
  id : String
  statsheet : String
  away_team : String
  home_team : String
  extra : List (String × Json)

/-- `GameStatsheet` from src/main.rs. -/
structure GameStatsheet where
  away_team_stats : String
  home_team_stats : String
deriving DecidableEq, Repr

/-- `TeamStatsheet` from src/main.rs. -/
structure TeamStatsheet where
  player_stats : List String
deriving DecidableEq, Repr

/-- `PlayerStatsheet` from src/main.rs: declared fields `id`, `playerId`,
`teamId` plus the flattened passthrough map. -/
structure PlayerStatsheet where
  id : String
  player_id : String
  team_id : String
  extra : List (String × Json)

/-- `Vec<&str>::join(",")`. -/
def joinIds (l : List String) : String :=
  String.intercalate "," l

/-- The comma-joined statsheet ids of the fetched games
(src/main.rs lines 135-139). -/
def gameIdsOf (games : List GameUpdate) : String :=
  joinIds (games.map (fun g => g.statsheet))

/-- The comma-joined away/home team-statsheet ids of the fetched game
statsheets, each contributing two ids (src/main.rs lines 153-157). -/
def teamIdsOf (gss : List GameStatsheet) : String :=
  joinIds (gss.flatMap (fun x => [x.away_team_stats, x.home_team_stats]))

/-- The comma-joined player ids of one batch of team statsheets
(src/main.rs lines 87-92). -/
def playerIdsOf (tss : List TeamStatsheet) : String :=
  joinIds (tss.flatMap (fun x => x.player_stats))

/-- Fuel-driven core of `slice::chunks`: structural recursion on the fuel
so that concrete evaluation reduces definitionally. -/
def chunksGo {α : Type} (n : Nat) : Nat → List α → List (List α)
  | _, [] => []
  | 0, _ :: _ => []
  | fuel + 1, x :: xs => (x :: xs).take n :: chunksGo n fuel ((x :: xs).drop n)

/-- Rust `slice::chunks(n)`: consecutive chunks of `n` elements, the last
chunk possibly shorter (src/main.rs line 174 uses `chunks(5)`). -/
def chunksOf {α : Type} (n : Nat) (l : List α) : List (List α) :=
  chunksGo n l.length l

/-- The ways a fetch can fail (src/main.rs: a `surf` transport error or a
`body_json` decode error, both mapped into `anyhow::Error`). -/
inductive FetchError where
  | transport : FetchError
  | decode : FetchError
deriving DecidableEq, Repr

/-- One remote GET request, identified by endpoint and query payload
(src/main.rs lines 124-126, 142-144, 160-162, 95-97). -/
inductive Request where
  | games (season day : Nat) : Request
  | gameStatsheets (ids : String) : Request
  | teamStatsheets (ids : String) : Request
  | playerSeasonStats (ids : String) : Request
deriving DecidableEq, Repr

/-- One completed file write, identified by the record and the day it was
written under (`write_game` / `write_player_statsheet`). -/
inductive WriteOp where
  | gameFile (day : Nat) (g : GameUpdate) : WriteOp
  | playerFile (day : Nat) (p : PlayerStatsheet) : WriteOp

/-- The remote service, as an oracle mapping each request payload to a
response or a failure.  `fetch_day` issues requests whose payloads are
derived from earlier responses, so the oracle is keyed the same way. -/
structure Oracle where
  games : Nat → Nat → Except FetchError (List GameUpdate)
  gameStatsheets : String → Except FetchError (List GameStatsheet)
  teamStatsheets : String → Except FetchError (List TeamStatsheet)
  playerSeasonStats : String → Except FetchError (List PlayerStatsheet)

/-- `fetch_player_statsheets` (src/main.rs lines 82-114) for one batch of
team statsheets: the request it issues and either the player writes it
performs or its error. -/
def runBatch (O : Oracle) (day : Nat) (batch : List TeamStatsheet) :
    Request × Except FetchError (List WriteOp) :=
  let ids := playerIdsOf batch
  (Request.playerSeasonStats ids,
   match O.playerSeasonStats ids with
   | Except.error e => Except.error e
   | Except.ok ps => Except.ok (ps.map (fun p => WriteOp.playerFile day p)))

/-- First error among the batch branches, in the model's linearisation
(the real `FuturesUnordered::try_collect` reports whichever error
completes first; the claims only depend on whether one exists). -/
def firstBatchError (rs : List (Request × Except FetchError (List WriteOp))) :
    Option FetchError :=
  rs.findSome? (fun r =>
    match r.2 with
    | Except.error e => some e
    | Except.ok _ => none)

/-- The writes a batch branch completed (none if its fetch failed). -/
def batchWrites (rs : List (Request × Except FetchError (List WriteOp))) :
    List WriteOp :=
  (rs.map (fun r =>
    match r.2 with
    | Except.error _ => []
    | Except.ok ws => ws)).flatten

/-- Outcome of one day's pipeline: the requests it issued, the writes it
completed, and its result. -/
structure DayResult where
  requests : List Request
  writes : List WriteOp
  result : Except FetchError Unit

/-- `fetch_day` (src/main.rs lines 116-185).  The three tier fetches are
strictly sequential, each aborting the day on failure with `?`; only
after the teamStatsheets response arrives does the code spawn the
concurrent block: one `fetch_player_statsheets` branch per chunk of 5
team statsheets, chained with one `write_game` branch per fetched game.
Spawned branches all run to completion (they are detached tasks), and
the day reports the first branch error if any.  The model linearises the
spawned branches in list order. -/
def fetchDay (O : Oracle) (season day : Nat) : DayResult :=
  let req0 := Request.games season day
  match O.games season day with
  | Except.error e => ⟨[req0], [], Except.error e⟩
  | Except.ok games =>
    let req1 := Request.gameStatsheets (gameIdsOf games)
    match O.gameStatsheets (gameIdsOf games) with
    | Except.error e => ⟨[req0, req1], [], Except.error e⟩
    | Except.ok gss =>
      let req2 := Request.teamStatsheets (teamIdsOf gss)
      match O.teamStatsheets (teamIdsOf gss) with
      | Except.error e => ⟨[req0, req1, req2], [], Except.error e⟩
      | Except.ok tss =>
        let branches := (chunksOf 5 tss).map (runBatch O day)
        let gameWrites := games.map (fun g => WriteOp.gameFile day g)
        ⟨[req0, req1, req2] ++ branches.map (fun b => b.1),
         batchWrites branches ++ gameWrites,
         match firstBatchError branches with
         | some e => Except.error e
         | none => Except.ok ()⟩

/-- Largest value of Rust's 64-bit `usize`. -/
def USIZE_MAX : Nat := 2 ^ 64 - 1

/-- Decimal value of a digit string. -/
def digitsVal (l : List Char) : Nat :=
  List.foldl (fun a c => a * 10 + (c.toNat - Char.toNat '0')) 0 l

/-- Rust `str::parse::<usize>`: an optional leading `+`, then one or more
ASCII digits, rejecting the empty string, any non-digit, and overflow
past `usize::MAX`. -/
def parseUsize (s : String) : Option Nat :=
  let l := match s.data with
    | '+' :: rest => rest
    | l => l
  if l.isEmpty then none
  else if l.all (fun c => c.isDigit) then
    let v := digitsVal l
    if v ≤ USIZE_MAX then some v else none
  else none

/-- Rust `usize` subtraction in a debug build: `none` models the
overflow panic when the subtrahend exceeds the minuend. -/
def usizeSub (a b : Nat) : Option Nat :=
  if b ≤ a then some (a - b) else none

/-- Rust `usize` subtraction in a release build: two's-complement
wraparound modulo `2 ^ 64` (given `b ≤ a + 2 ^ 64`). -/
def usizeSubWrap (a b : Nat) : Nat :=
  (a + 2 ^ 64 - b) % 2 ^ 64

/-- The fatal errors of `main` (src/main.rs lines 188-202): a missing
season argument, an unparsable one, the debug-build panic of the
unguarded `- 1`, or a propagated pipeline error. -/
inductive MainError where
  | missingSeason : MainError
  | parseFailure : MainError
  | underflowPanic : MainError
  | pipeline (e : FetchError) : MainError
deriving DecidableEq, Repr

/-- Outcome of the whole process: requests issued, writes completed,
and the process result. -/
structure MainOutcome where
  requests : List Request
  writes : List WriteOp
  result : Except MainError Unit

/-- First error among the day pipelines, in the model's linearisation. -/
def firstDayError (ds : List DayResult) : Option FetchError :=
  ds.findSome? (fun d =>
    match d.result with
    | Except.error e => some e
    | Except.ok _ => none)

/-- `main` (src/main.rs lines 187-203): takes `env::args().nth(1)`,
parses it as `usize`, subtracts 1 (unguarded), then runs `fetch_day`
for every day in `0..99` and reports the first failure.  `args` mirrors
`env::args()`, program name first. -/
def mainModel (args : List String) (O : Oracle) : MainOutcome :=
  match args[1]? with
  | none => ⟨[], [], Except.error MainError.missingSeason⟩
  | some s =>
    match parseUsize s with
    | none => ⟨[], [], Except.error MainError.parseFailure⟩
    | some n =>
      match usizeSub n 1 with
      | none => ⟨[], [], Except.error MainError.underflowPanic⟩
      | some season =>
        let ds := (List.range 99).map (fun day => fetchDay O season day)
        ⟨(ds.map (fun d => d.requests)).flatten,
         (ds.map (fun d => d.writes)).flatten,
         match firstDayError ds with
         | some e => Except.error (MainError.pipeline e)
         | none => Except.ok ()⟩

/-- Split a file name at its last `.`: `some (stem, ext)` when a dot
exists, `none` otherwise.  Mirrors the `rsplitn(2, '.')` in Rust's
`split_file_at_dot`. -/
def lastDotSplit (l : List Char) : Option (List Char × List Char) :=
  let r := l.reverse
  match r.dropWhile (fun c => c != '.') with
  | [] => none
  | _ :: stemRev => some (stemRev.reverse, (r.takeWhile (fun c => c != '.')).reverse)

/-- Rust `PathBuf::set_extension` on a normal file name — a single
component that is not `.` or `..` (for those the path's `file_name()` is
not the pushed string and this model does not apply): if the name has an
extension — a `.` whose stem part is nonempty, per `split_file_at_dot` —
the extension is replaced; otherwise `.ext` is appended.  A lone leading
dot is not an extension separator. -/
def setExtension (name ext : String) : String :=
  match lastDotSplit name.data with
  | some (stem, _) =>
      if stem.isEmpty then String.mk (name.data ++ '.' :: ext.data)
      else String.mk (stem ++ '.' :: ext.data)
  | none => String.mk (name.data ++ '.' :: ext.data)

/-- The path components `write_game` (src/main.rs lines 69-80) writes to:
`out` / `games` / `day.to_string()` / `home_team` with `set_extension("json")`
applied to the final component.  Faithful when `home_team` is a plain
single path component (no separator, not "." or ".."): `PathBuf::push`
would split a string containing '/' into several components, and after
pushing "." or ".." the path has no `file_name`, so `set_extension`
would be a no-op; theorems about this function carry those guards. -/
def writeGamePath (day : Nat) (g : GameUpdate) : List String :=
  ["out", "games", Nat.repr day, setExtension g.home_team "json"]

/-- The path components `write_player_statsheet` (src/main.rs lines 56-67)
writes to: `out` / `players` / `player_id` / `day.to_string()` with
`set_extension("json")` applied to the final component. -/
def writePlayerPath (day : Nat) (p : PlayerStatsheet) : List String :=
  ["out", "players", p.player_id, setExtension (Nat.repr day) "json"]

/-- serde_json's escaping of one character inside a string literal:
quote, backslash, and the control characters below 0x20. -/
def escapeChar (c : Char) : List Char :=
  if c = '"' then ['\\', '"']
  else if c = '\\' then ['\\', '\\']
  else if c.toNat = 8 then ['\\', 'b']
  else if c.toNat = 9 then ['\\', 't']
  else if c.toNat = 10 then ['\\', 'n']
  else if c.toNat = 12 then ['\\', 'f']
  else if c.toNat = 13 then ['\\', 'r']
  else if c.toNat < 32 then
    ['\\', 'u', '0', '0', Nat.digitChar (c.toNat / 16), Nat.digitChar (c.toNat % 16)]
  else [c]

/-- serde_json's rendering of a JSON string literal. -/
def renderString (s : String) : String :=
  String.mk ('"' :: s.data.flatMap escapeChar ++ ['"'])

mutual

/-- Compact rendering of a JSON value, as `serde_json::to_string`. -/
def Json.render : Json → String
  | Json.null => "null"
  | Json.bool true => "true"
  | Json.bool false => "false"
  | Json.num n => toString n
  | Json.str s => renderString s
  | Json.arr xs => "[" ++ Json.renderList xs ++ "]"
  | Json.obj fs => "\x7b" ++ Json.renderFields fs ++ "\x7d"

/-- Comma-separated rendering of array elements. -/
def Json.renderList : List Json → String
  | [] => ""
  | [x] => Json.render x
  | x :: y :: rest => Json.render x ++ "," ++ Json.renderList (y :: rest)

/-- Comma-separated rendering of object entries. -/
def Json.renderFields : List (String × Json) → String
  | [] => ""
  | [(k, v)] => renderString k ++ ":" ++ Json.render v
  | (k, v) :: e :: rest =>
      renderString k ++ ":" ++ Json.render v ++ "," ++ Json.renderFields (e :: rest)

end

/-- Rendering of a whole JSON object given its entries in order. -/
def renderObjString (fs : List (String × Json)) : String :=
  "\x7b" ++ Json.renderFields fs ++ "\x7d"

/-- The declared (camelCase) wire names of `GameUpdate`. -/
def gameSchema : List String := ["id", "statsheet", "awayTeam", "homeTeam"]

/-- The declared (camelCase) wire names of `PlayerStatsheet`. -/
def playerSchema : List String := ["id", "playerId", "teamId"]

/-- The declared fields of a `GameUpdate` as serde serialises them:
struct fields first, in declaration order, under their camelCase names. -/
def gameUpdateFields (g : GameUpdate) : List (String × Json) :=
  [("id", Json.str g.id), ("statsheet", Json.str g.statsheet),
   ("awayTeam", Json.str g.away_team), ("homeTeam", Json.str g.home_team)]

/-- The object `serde_json::to_string` emits for a `GameUpdate`: declared
fields, then the flattened `extra` map in its iteration order, which is
passed explicitly because a `HashMap`'s iteration order is not a
function of its contents. -/
def gameUpdateObj (g : GameUpdate) (order : List (String × Json)) :
    List (String × Json) :=
  gameUpdateFields g ++ order

/-- The bytes `write_game` puts in the file, given the iteration order of
the record's `extra` map. -/
def serializeGameUpdate (g : GameUpdate) (order : List (String × Json)) : String :=
  renderObjString (gameUpdateObj g order)

/-- The declared fields of a `PlayerStatsheet` as serde serialises them. -/
def playerFields (p : PlayerStatsheet) : List (String × Json) :=
  [("id", Json.str p.id), ("playerId", Json.str p.player_id),
   ("teamId", Json.str p.team_id)]

/-- The object `serde_json::to_string` emits for a `PlayerStatsheet`. -/
def playerObj (p : PlayerStatsheet) (order : List (String × Json)) :
    List (String × Json) :=
  playerFields p ++ order

/-- The bytes `write_player_statsheet` puts in the file, given the
iteration order of the record's `extra` map. -/
def serializePlayer (p : PlayerStatsheet) (order : List (String × Json)) : String :=
  renderObjString (playerObj p order)

/-- First value bound to key `k` in a JSON object. -/
def lookupField (obj : List (String × Json)) (k : String) : Option Json :=
  (obj.find? (fun kv => kv.1 == k)).map (fun kv => kv.2)

/-- serde's deserialisation of a `GameUpdate` from a JSON object (keys
assumed distinct): each declared field takes the value bound to its wire
name, which must be a string, and the `#[serde(flatten)]` map collects
exactly the bindings whose key is not a declared name. -/
def parseGameUpdate (obj : List (String × Json)) : Option GameUpdate :=
  match lookupField obj "id", lookupField obj "statsheet",
        lookupField obj "awayTeam", lookupField obj "homeTeam" with
  | some (Json.str i), some (Json.str s), some (Json.str a), some (Json.str h) =>
      some ⟨i, s, a, h, obj.filter (fun kv => !(gameSchema.contains kv.1))⟩
  | _, _, _, _ => none

/-- serde's deserialisation of a `PlayerStatsheet` from a JSON object
(keys assumed distinct). -/
def parsePlayer (obj : List (String × Json)) : Option PlayerStatsheet :=
  match lookupField obj "id", lookupField obj "playerId",
        lookupField obj "teamId" with
  | some (Json.str i), some (Json.str p), some (Json.str t) =>
      some ⟨i, p, t, obj.filter (fun kv => !(playerSchema.contains kv.1))⟩
  | _, _, _ => none

/-- An upstream that answers every request with an empty list. -/
def emptyOracle : Oracle :=
  ⟨fun _ _ => Except.ok [], fun _ => Except.ok [],
   fun _ => Except.ok [], fun _ => Except.ok []⟩

/-- A game used by the day-7 failure scenario. -/
def c2Game : GameUpdate := ⟨"g1", "s1", "away", "home", []⟩

/-- An upstream whose teamStatsheets tier fails with a transport error
while the earlier tiers succeed and return one game. -/
def c2Oracle : Oracle :=
  ⟨fun _ _ => Except.ok [c2Game],
   fun _ => Except.ok [⟨"ats", "hts"⟩],
   fun _ => Except.error FetchError.transport,
   fun _ => Except.ok []⟩

/-- Six team statsheets, to exercise two player batches. -/
def c4Teams : List TeamStatsheet :=
  [⟨["p1"]⟩, ⟨["p2"]⟩, ⟨["p3"]⟩, ⟨["p4"]⟩, ⟨["p5"]⟩, ⟨["p6"]⟩]

/-- An upstream delivering one game, one game statsheet and six team
statsheets, so a full day issues two playerSeasonStats requests. -/
def c4Oracle : Oracle :=
  ⟨fun _ _ => Except.ok [⟨"g1", "s1", "a1", "h1", []⟩],
   fun _ => Except.ok [⟨"ats", "hts"⟩],
   fun _ => Except.ok c4Teams,
   fun _ => Except.ok []⟩

theorem chunksGo_fuel {α : Type} (n : Nat) (hn : 1 ≤ n) :
    ∀ (fuel fuel' : Nat) (l : List α), l.length ≤ fuel → l.length ≤ fuel' →
      chunksGo n fuel l = chunksGo n fuel' l := by
  intro fuel
  induction fuel with
  | zero =>
    intro fuel' l hl _
    cases l with
    | nil => cases fuel' <;> rfl
    | cons x xs => simp at hl
  | succ f ih =>
    intro fuel' l hl hl'
    cases l with
    | nil => cases fuel' <;> rfl
    | cons x xs =>
      cases fuel' with
      | zero => simp at hl'
      | succ f' =>
        show _ :: chunksGo n f ((x :: xs).drop n) =
             _ :: chunksGo n f' ((x :: xs).drop n)
        have hdrop : ((x :: xs).drop n).length ≤ xs.length := by
          cases n with
          | zero => omega
          | succ m =>
            simp only [List.drop_succ_cons, List.length_drop]
            omega
        have h1 : (x :: xs).length ≤ f + 1 := hl
        have h2 : (x :: xs).length ≤ f' + 1 := hl'
        simp only [List.length_cons] at h1 h2
        rw [ih f' ((x :: xs).drop n) (by omega) (by omega)]

/-- Unfolding equation for `chunksOf` on a nonempty list (chunk size ≥ 1). -/
theorem chunksOf_cons {α : Type} (n : Nat) (hn : 1 ≤ n) (x : α) (xs : List α) :
    chunksOf n (x :: xs) = (x :: xs).take n :: chunksOf n ((x :: xs).drop n) := by
  show chunksGo n (xs.length + 1) (x :: xs) = _
  show (x :: xs).take n :: chunksGo n xs.length ((x :: xs).drop n) = _
  have hdrop : ((x :: xs).drop n).length ≤ xs.length := by
    cases n with
    | zero => omega
    | succ m =>
      simp only [List.drop_succ_cons, List.length_drop]
      omega
  rw [chunksGo_fuel n hn xs.length ((x :: xs).drop n).length ((x :: xs).drop n)
    hdrop (Nat.le_refl _)]
  rfl

theorem chunksOf_nil {α : Type} (n : Nat) : chunksOf n ([] : List α) = [] := rfl

/-- Full characterisation of `chunksOf 5`: chunks concatenate back to the
input, chunk sizes are `⌊n/5⌋` fives followed by the nonzero remainder,
and there are `⌈n/5⌉` chunks. -/
theorem chunks_five_spec {α : Type} : ∀ (n : Nat) (l : List α), l.length = n →
    (chunksOf 5 l).flatten = l ∧
    (chunksOf 5 l).map List.length =
      List.replicate (l.length / 5) 5 ++
        (if l.length % 5 = 0 then [] else [l.length % 5]) ∧
    (chunksOf 5 l).length = (l.length + 4) / 5 := by
  intro n
  induction n using Nat.strong_induction_on with
  | _ n ih =>
    intro l hl
    cases l with
    | nil => simp [chunksOf_nil]
    | cons x xs =>
      rw [chunksOf_cons 5 (by omega)]
      have hdl : ((x :: xs).drop 5).length = (xs.length + 1) - 5 := by
        simp [List.length_drop]
      simp only [List.length_cons] at hl
      have hlt : ((x :: xs).drop 5).length < n := by
        simp only [hdl]; omega
      obtain ⟨ih1, ih2, ih3⟩ := ih _ hlt ((x :: xs).drop 5) rfl
      refine ⟨?_, ?_, ?_⟩
      · simp only [List.flatten_cons, ih1, List.take_append_drop]
      · simp only [List.map_cons, ih2, List.length_cons, List.length_take, hdl]
        rcases Nat.lt_or_ge (xs.length + 1) 5 with hsmall | hbig
        · have h5 : (x :: xs).drop 5 = [] := by
            apply List.drop_eq_nil_of_le
            simp only [List.length_cons]; omega
          have hd : (xs.length + 1) / 5 = 0 := Nat.div_eq_of_lt hsmall
          have hm : (xs.length + 1) % 5 = xs.length + 1 := Nat.mod_eq_of_lt hsmall
          simp [hd, hm, Nat.min_def, h5]
          omega
        · have hd : (xs.length + 1) / 5 = ((xs.length + 1) - 5) / 5 + 1 := by omega
          have hm : (xs.length + 1) % 5 = ((xs.length + 1) - 5) % 5 := by omega
          rw [hd, hm, List.replicate_succ]
          simp [Nat.min_def]
          omega
      · simp only [List.length_cons, ih3, hdl]
        omega

/-- C5: the fetched TeamStatsheet list is partitioned into consecutive
batches of 5 in list order — the batches concatenate back to the list in
order, the batch sizes are `⌊n/5⌋` batches of 5 followed by one batch of
the nonzero remainder (so length 5 gives 1 batch, length 6 gives batches
of sizes 5 and 1, length 0 gives no batch), and the number of batches is
`⌈n/5⌉ = (n + 4) / 5`. -/
theorem c5_team_statsheet_batching (l : List TeamStatsheet) :
    (chunksOf 5 l).flatten = l ∧
    (chunksOf 5 l).map List.length =
      List.replicate (l.length / 5) 5 ++
        (if l.length % 5 = 0 then [] else [l.length % 5]) ∧
    (chunksOf 5 l).length = (l.length + 4) / 5 :=
  chunks_five_spec l.length l rfl

/-- C1 counterexample: with an upstream whose games fetch for the day
returns the empty list (and every other fetch returns the empty list),
the day still issues the gameStatsheets and teamStatsheets requests with
an empty-string ids parameter — the claimed "zero downstream fetches" is
false, though writes are zero and the day succeeds. -/
theorem c1_counterexample :
    emptyOracle.games 0 0 = Except.ok [] ∧
    (fetchDay emptyOracle 0 0).requests =
      [Request.games 0 0, Request.gameStatsheets "", Request.teamStatsheets ""] ∧
    Request.gameStatsheets "" ∈ (fetchDay emptyOracle 0 0).requests ∧
    Request.teamStatsheets "" ∈ (fetchDay emptyOracle 0 0).requests := by
  refine ⟨rfl, rfl, ?_, ?_⟩ <;> decide

/-- C1 (amended): for a day whose games fetch returns the empty list, the
pipeline still issues one gameStatsheets request and one teamStatsheets
request, both with the empty-string ids parameter; when those also
return empty lists it issues no playerSeasonStats request, performs zero
file writes, and the day completes with success. -/
theorem c1_empty_games_day (O : Oracle) (s d : Nat)
    (h1 : O.games s d = Except.ok [])
    (h2 : O.gameStatsheets "" = Except.ok [])
    (h3 : O.teamStatsheets "" = Except.ok []) :
    fetchDay O s d =
      ⟨[Request.games s d, Request.gameStatsheets "", Request.teamStatsheets ""],
       [], Except.ok ()⟩ := by
  have e1 : gameIdsOf [] = "" := rfl
  have e2 : teamIdsOf [] = "" := rfl
  unfold fetchDay
  rw [h1]; dsimp only
  rw [e1, h2]; dsimp only
  rw [e2, h3]; dsimp only
  rfl

/-- C1 witness: the amended theorem applied to the all-empty upstream. -/
theorem c1_witness :
    fetchDay emptyOracle 1 2 =
      ⟨[Request.games 1 2, Request.gameStatsheets "", Request.teamStatsheets ""],
       [], Except.ok ()⟩ :=
  c1_empty_games_day emptyOracle 1 2 rfl rfl rfl

/-- C2 counterexample: with an upstream that returns one game and then
fails the teamStatsheets fetch with a transport error, day 7 performs no
writes at all — in particular the fetched game's file is NOT written,
because `fetch_day` aborts on the `?` of the teamStatsheets fetch before
the game-write branch is ever spawned. -/
theorem c2_counterexample :
    c2Oracle.games 0 7 = Except.ok [c2Game] ∧
    c2Oracle.teamStatsheets (teamIdsOf [⟨"ats", "hts"⟩]) =
      Except.error FetchError.transport ∧
    (fetchDay c2Oracle 0 7).writes = [] ∧
    (WriteOp.gameFile 7 c2Game ∉ (fetchDay c2Oracle 0 7).writes) ∧
    (fetchDay c2Oracle 0 7).result = Except.error FetchError.transport := by
  refine ⟨rfl, rfl, rfl, ?_, rfl⟩
  intro h
  simp [fetchDay, c2Oracle, gameIdsOf, c2Game] at h

/-- C2 (amended): if the teamStatsheets fetch for a day fails with a
TransportError, the day aborts before spawning any branch: no
player-statsheet file and no game file is written for that day, and the
day reports the transport error. -/
theorem c2_teamstats_failure_aborts_day (O : Oracle) (s d : Nat)
    (games : List GameUpdate) (gss : List GameStatsheet)
    (h1 : O.games s d = Except.ok games)
    (h2 : O.gameStatsheets (gameIdsOf games) = Except.ok gss)
    (h3 : O.teamStatsheets (teamIdsOf gss) = Except.error FetchError.transport) :
    (fetchDay O s d).writes = [] ∧
    (fetchDay O s d).result = Except.error FetchError.transport := by
  unfold fetchDay
  rw [h1]; dsimp only
  rw [h2]; dsimp only
  rw [h3]; dsimp only
  exact ⟨rfl, rfl⟩

/-- C2 witness: the amended theorem applied to the failing upstream. -/
theorem c2_witness :
    (fetchDay c2Oracle 0 7).writes = [] ∧
    (fetchDay c2Oracle 0 7).result = Except.error FetchError.transport :=
  c2_teamstats_failure_aborts_day c2Oracle 0 7 [c2Game] [⟨"ats", "hts"⟩] rfl rfl rfl

/-- C4: for a day in [0,98] whose three tier fetches succeed and whose
pipeline completes without failure, the issued request sequence is
exactly one games request, then one gameStatsheets request, then one
teamStatsheets request, then one playerSeasonStats request per batch of
(up to) 5 team statsheets, in that dependency order (the concurrent
batch requests linearised in batch order). -/
theorem c4_request_sequence (O : Oracle) (s d : Nat) (_hd : d ≤ 98)
    (games : List GameUpdate) (gss : List GameStatsheet) (tss : List TeamStatsheet)
    (h1 : O.games s d = Except.ok games)
    (h2 : O.gameStatsheets (gameIdsOf games) = Except.ok gss)
    (h3 : O.teamStatsheets (teamIdsOf gss) = Except.ok tss)
    (_hok : (fetchDay O s d).result = Except.ok ()) :
    (fetchDay O s d).requests =
      [Request.games s d, Request.gameStatsheets (gameIdsOf games),
       Request.teamStatsheets (teamIdsOf gss)] ++
        (chunksOf 5 tss).map (fun b => Request.playerSeasonStats (playerIdsOf b)) := by
  unfold fetchDay
  rw [h1]; dsimp only
  rw [h2]; dsimp only
  rw [h3]; dsimp only
  simp [runBatch, List.map_map, Function.comp]

/-- C4 witness: a full day over six team statsheets issues the three tier
requests followed by two playerSeasonStats requests. -/
theorem c4_witness :
    (fetchDay c4Oracle 1 3).requests =
      [Request.games 1 3,
       Request.gameStatsheets (gameIdsOf [⟨"g1", "s1", "a1", "h1", []⟩]),
       Request.teamStatsheets (teamIdsOf [⟨"ats", "hts"⟩])] ++
        (chunksOf 5 c4Teams).map (fun b => Request.playerSeasonStats (playerIdsOf b)) :=
  c4_request_sequence c4Oracle 1 3 (by omega) [⟨"g1", "s1", "a1", "h1", []⟩]
    [⟨"ats", "hts"⟩] c4Teams rfl rfl rfl rfl

/-- A games request appearing in a day's request trace carries exactly
that day's season index and day number. -/
theorem fetchDay_games_mem (O : Oracle) (season day s' d' : Nat) :
    Request.games s' d' ∈ (fetchDay O season day).requests ↔ s' = season ∧ d' = day := by
  unfold fetchDay
  cases hg : O.games season day with
  | error e => simp [eq_comm]
  | ok games =>
    cases hgs : O.gameStatsheets (gameIdsOf games) with
    | error e => simp [hgs, eq_comm]
    | ok gss =>
      cases hts : O.teamStatsheets (teamIdsOf gss) with
      | error e => simp [hgs, hts, eq_comm]
      | ok tss => simp [hgs, hts, runBatch, eq_comm]

/-- When the season argument parses to `n ≥ 1`, the run issues a games
request for every day below 99 with season index `n - 1`, and every
games request it issues carries season index `n - 1`. -/
theorem mainModel_parsed (args : List String) (O : Oracle) (s : String) (n : Nat)
    (ha : args[1]? = some s) (hp : parseUsize s = some n) (hn : 1 ≤ n) :
    (∀ d, d < 99 → Request.games (n - 1) d ∈ (mainModel args O).requests) ∧
    (∀ s' d, Request.games s' d ∈ (mainModel args O).requests → s' = n - 1) := by
  have hsub : usizeSub n 1 = some (n - 1) := by
    unfold usizeSub
    rw [if_pos hn]
  unfold mainModel
  rw [ha]; dsimp only
  rw [hp]; dsimp only
  rw [hsub]; dsimp only
  constructor
  · intro d hd
    simp only [List.mem_flatten, List.mem_map]
    refine ⟨(fetchDay O (n - 1) d).requests,
      ⟨fetchDay O (n - 1) d, ⟨⟨d, ?_, rfl⟩, rfl⟩⟩, ?_⟩
    · simp [List.mem_range, hd]
    · exact (fetchDay_games_mem O (n - 1) d (n - 1) d).mpr ⟨rfl, rfl⟩
  · intro s' d hmem
    simp only [List.mem_flatten, List.mem_map] at hmem
    obtain ⟨rs, ⟨dr, ⟨⟨day, hday, rfl⟩, rfl⟩⟩, hin⟩ := hmem
    exact ((fetchDay_games_mem O (n - 1) day s' d).mp hin).1

/-- C8: the first CLI argument is parsed as an unsigned integer season; a
missing argument fails with the argument error and a non-numeric one
with the parse error, in both cases before any request is issued (the
outcome has an empty request trace); a parsed season `n ≥ 1` is
converted to the 0-based index `n - 1`, which appears in every games
request of the run. -/
theorem c8_season_argument (args : List String) (O : Oracle) (s : String) (n : Nat) :
    (args[1]? = none → mainModel args O = ⟨[], [], Except.error MainError.missingSeason⟩) ∧
    (args[1]? = some s → parseUsize s = none →
      mainModel args O = ⟨[], [], Except.error MainError.parseFailure⟩) ∧
    (args[1]? = some s → parseUsize s = some n → 1 ≤ n →
      (∀ d, d < 99 → Request.games (n - 1) d ∈ (mainModel args O).requests) ∧
      (∀ s' d, Request.games s' d ∈ (mainModel args O).requests → s' = n - 1)) := by
  refine ⟨?_, ?_, ?_⟩
  · intro ha
    unfold mainModel
    rw [ha]
  · intro ha hp
    unfold mainModel
    rw [ha]; dsimp only
    rw [hp]
  · intro ha hp hn
    exact mainModel_parsed args O s n ha hp hn

/-- C8 witness: no argument, the argument `"two"`, and the argument
`"17"` (whose games requests use season index 16). -/
theorem c8_witness :
    mainModel ["statsheet-dumper"] emptyOracle =
      ⟨[], [], Except.error MainError.missingSeason⟩ ∧
    mainModel ["statsheet-dumper", "two"] emptyOracle =
      ⟨[], [], Except.error MainError.parseFailure⟩ ∧
    Request.games 16 3 ∈ (mainModel ["statsheet-dumper", "17"] emptyOracle).requests := by
  refine ⟨(c8_season_argument ["statsheet-dumper"] emptyOracle "x" 1).1 rfl,
          (c8_season_argument ["statsheet-dumper", "two"] emptyOracle "two" 1).2.1 rfl rfl,
          ?_⟩
  have h := (c8_season_argument ["statsheet-dumper", "17"] emptyOracle "17" 17).2.2
    rfl rfl (by omega)
  exact h.1 3 (by omega)

/-- C9: the argument string "0" parses successfully to 0, the unguarded
`- 1` then underflows — a panic in a debug build (`usizeSub` returns
`none` and the run aborts before any request) and wraparound to
`usize::MAX` in a release build (`usizeSubWrap`) — and the subtraction
succeeds exactly when the parsed season is at least 1, a precondition no
code path checks. -/
theorem c9_season_zero_underflow (O : Oracle) :
    parseUsize "0" = some 0 ∧
    usizeSub 0 1 = none ∧
    mainModel ["statsheet-dumper", "0"] O =
      ⟨[], [], Except.error MainError.underflowPanic⟩ ∧
    usizeSubWrap 0 1 = USIZE_MAX ∧
    (∀ n, usizeSub n 1 = none ↔ n = 0) ∧
    (∀ n, 1 ≤ n → usizeSub n 1 = some (n - 1)) := by
  refine ⟨rfl, rfl, rfl, rfl, ?_, ?_⟩
  · intro n
    unfold usizeSub
    rcases Nat.eq_zero_or_pos n with h | h
    · subst h; simp
    · rw [if_pos (show 1 ≤ n by omega)]
      simp
      omega
  · intro n hn
    unfold usizeSub
    rw [if_pos hn]

/-- C9 witness: the season-0 run aborts with the underflow panic, while
season 5 converts to index 4. -/
theorem c9_witness :
    mainModel ["statsheet-dumper", "0"] emptyOracle =
      ⟨[], [], Except.error MainError.underflowPanic⟩ ∧
    usizeSub 5 1 = some 4 :=
  ⟨(c9_season_zero_underflow emptyOracle).2.2.1,
   (c9_season_zero_underflow emptyOracle).2.2.2.2.2 5 (by omega)⟩

theorem digitChar_ne_dot (n : Nat) : Nat.digitChar n ≠ '.' := by
  by_cases h0 : n < 16
  · interval_cases n <;> decide
  · have he : Nat.digitChar n = '*' := by
      unfold Nat.digitChar
      rw [if_neg (show ¬ n = 0 by omega), if_neg (show ¬ n = 1 by omega),
          if_neg (show ¬ n = 2 by omega), if_neg (show ¬ n = 3 by omega),
          if_neg (show ¬ n = 4 by omega), if_neg (show ¬ n = 5 by omega),
          if_neg (show ¬ n = 6 by omega), if_neg (show ¬ n = 7 by omega),
          if_neg (show ¬ n = 8 by omega), if_neg (show ¬ n = 9 by omega),
          if_neg (show ¬ n = 10 by omega), if_neg (show ¬ n = 11 by omega),
          if_neg (show ¬ n = 12 by omega), if_neg (show ¬ n = 13 by omega),
          if_neg (show ¬ n = 14 by omega), if_neg (show ¬ n = 15 by omega)]
    rw [he]
    decide

theorem toDigitsCore_ne_dot :
    ∀ (fuel n : Nat) (ds : List Char), (∀ c ∈ ds, c ≠ '.') →
      ∀ c ∈ Nat.toDigitsCore 10 fuel n ds, c ≠ '.' := by
  intro fuel
  induction fuel with
  | zero =>
    intro n ds h c hc
    exact h c hc
  | succ f ih =>
    intro n ds h c hc
    simp only [Nat.toDigitsCore] at hc
    split at hc
    · rcases List.mem_cons.mp hc with rfl | hmem
      · exact digitChar_ne_dot _
      · exact h c hmem
    · refine ih _ _ ?_ c hc
      intro c' hc'
      rcases List.mem_cons.mp hc' with rfl | hmem
      · exact digitChar_ne_dot _
      · exact h c' hmem

/-- The decimal rendering of a day number contains no dot, so its
`set_extension "json"` appends rather than replaces. -/
theorem repr_ne_dot (n : Nat) : '.' ∉ (Nat.repr n).data := by
  intro h
  have := toDigitsCore_ne_dot (n + 1) n [] (by intro c hc; cases hc) '.' h
  exact this rfl

theorem setExtension_no_dot (name ext : String) (h : '.' ∉ name.data) :
    setExtension name ext = String.mk (name.data ++ '.' :: ext.data) := by
  unfold setExtension lastDotSplit
  have hdw : name.data.reverse.dropWhile (fun c => c != '.') = [] := by
    rw [List.dropWhile_eq_nil_iff]
    intro x hx
    simp only [bne_iff_ne, ne_eq]
    intro hxd
    subst hxd
    exact h (List.mem_reverse.mp hx)
  dsimp only
  rw [hdw]

theorem firstDotSplit (r : List Char) (h : '.' ∈ r) :
    ∃ a b, r = a ++ '.' :: b ∧ '.' ∉ a ∧
      r.takeWhile (fun c => c != '.') = a ∧
      r.dropWhile (fun c => c != '.') = '.' :: b := by
  induction r with
  | nil => cases h
  | cons c cs ih =>
    by_cases hc : c = '.'
    · subst hc
      refine ⟨[], cs, rfl, by simp, ?_, ?_⟩
      · simp [List.takeWhile_cons]
      · simp [List.dropWhile_cons]
    · have h' : '.' ∈ cs := by
        rcases List.mem_cons.mp h with heq | hmem
        · exact absurd heq.symm hc
        · exact hmem
      obtain ⟨a, b, hr, ha, ht, hd⟩ := ih h'
      refine ⟨c :: a, b, by simp [hr], ?_, ?_, ?_⟩
      · intro hmem
        rcases List.mem_cons.mp hmem with heq | hmem'
        · exact hc heq.symm
        · exact ha hmem'
      · simp [List.takeWhile_cons, hc, ht]
      · simp [List.dropWhile_cons, hc, hd]

/-- A list containing a dot splits at its LAST dot: the part after it is
dot-free, and `lastDotSplit` returns exactly that split. -/
theorem lastDotSplit_spec (l : List Char) (h : '.' ∈ l) :
    ∃ pre post, l = pre ++ '.' :: post ∧ '.' ∉ post ∧
      lastDotSplit l = some (pre, post) := by
  obtain ⟨a, b, hr, ha, ht, hd⟩ := firstDotSplit l.reverse (List.mem_reverse.mpr h)
  refine ⟨b.reverse, a.reverse, ?_, ?_, ?_⟩
  · have := congrArg List.reverse hr
    simpa using this
  · intro hmem
    exact ha (List.mem_reverse.mp hmem)
  · unfold lastDotSplit
    dsimp only
    rw [hd, ht]

/-- On a dot-free file name, `set_extension` appends `.ext`. -/
theorem setExtension_append (name ext : String) (h : '.' ∉ name.data) :
    setExtension name ext = name ++ String.mk ('.' :: ext.data) := by
  rw [setExtension_no_dot name ext h]
  apply String.ext
  simp [String.data_append]

/-- C6 counterexample: a fetched game with homeTeamId "a.b" on day 3 is
written to out/games/3/a.json, not to the claimed out/games/3/a.b.json,
because `set_extension` replaces the "b" after the last dot. -/
theorem c6_counterexample :
    (GameUpdate.home_team ⟨"g", "s", "at", "a.b", []⟩) = "a.b" ∧
    writeGamePath 3 ⟨"g", "s", "at", "a.b", []⟩ = ["out", "games", "3", "a.json"] ∧
    writeGamePath 3 ⟨"g", "s", "at", "a.b", []⟩ ≠ ["out", "games", "3", "a.b.json"] := by
  refine ⟨rfl, rfl, ?_⟩
  decide

/-- C6 (amended): for ids that are plain single path components — a
homeTeamId that is nonempty, dot-free and separator-free, and a playerId
that is not empty, `.`, `..` or separated — a GameUpdate with homeTeamId
h fetched on day d is written to out/games/d/h.json, and a
PlayerStatsheet with playerId p is written to out/players/p/d.json. -/
theorem c6_write_paths (d : Nat) (g : GameUpdate) (p : PlayerStatsheet)
    (_hne : g.home_team ≠ "") (hdot : '.' ∉ g.home_team.data)
    (_hsep : '/' ∉ g.home_team.data)
    (_pne : p.player_id ∉ ["", ".", ".."]) (_psep : '/' ∉ p.player_id.data) :
    writeGamePath d g = ["out", "games", Nat.repr d, g.home_team ++ ".json"] ∧
    writePlayerPath d p = ["out", "players", p.player_id, Nat.repr d ++ ".json"] := by
  constructor
  · unfold writeGamePath
    rw [setExtension_append _ _ hdot]
  · unfold writePlayerPath
    rw [setExtension_append _ _ (repr_ne_dot d)]

/-- C6 witness: homeTeamId "home" on day 3 goes to out/games/3/home.json
and playerId "P1" on day 3 goes to out/players/P1/3.json. -/
theorem c6_witness :
    writeGamePath 3 ⟨"g", "s", "at", "home", []⟩ = ["out", "games", "3", "home.json"] ∧
    writePlayerPath 3 ⟨"i", "P1", "t", []⟩ = ["out", "players", "P1", "3.json"] := by
  have h := c6_write_paths 3 ⟨"g", "s", "at", "home", []⟩ ⟨"i", "P1", "t", []⟩
    (by decide) (by decide) (by decide) (by decide) (by decide)
  exact ⟨h.1.trans (by decide), h.2.trans (by decide)⟩

/-- C10 counterexample: the claim's universal "for any homeTeamId
containing a '.' the substring after the last dot is replaced" fails on
".b", whose only dot is leading: Rust treats such a name as having no
extension, so ".json" is appended and the file is out/games/3/.b.json —
which also refutes "the path law holds only for dot-free ids", since the
law out/games/3/<id>.json does hold at the dotted id ".b". -/
theorem c10_counterexample :
    (GameUpdate.home_team ⟨"g", "s", "at", ".b", []⟩) = ".b" ∧
    ('.' ∈ (String.data ".b")) ∧
    writeGamePath 3 ⟨"g", "s", "at", ".b", []⟩ = ["out", "games", "3", ".b.json"] ∧
    writeGamePath 3 ⟨"g", "s", "at", ".b", []⟩ ≠ ["out", "games", "3", ".json"] ∧
    setExtension ".b" "json" = ".b" ++ ".json" := by
  refine ⟨rfl, ?_, rfl, ?_, rfl⟩ <;> decide

/-- C10 (amended): for any homeTeamId that is a plain single path
component (no separator, not the special component "..") with a dot at
a position after the first character, the game-file name is built by
replacing the substring after the LAST dot with "json": the id splits
as pre ++ "." ++ post with post dot-free and pre nonempty, and the file
written is out/games/<d>/<pre>.json (so "a.b" on day 3 goes to
out/games/3/a.json); a component whose only dot is leading instead gets
".json" appended, so within plain single components the spec's path law
holds exactly for ids with no dot beyond the first character.  The
separator and ".." guards keep the statement inside the model's faithful
domain: pushing a string with '/' splits it into several components, and
pushing ".." leaves `file_name()` empty, making `set_extension` a no-op
and the subsequent write fail. -/
theorem c10_dotted_home_team (d : Nat) (g : GameUpdate)
    (h : '.' ∈ g.home_team.data.drop 1)
    (_hsep : '/' ∉ g.home_team.data) (_hdd : g.home_team ≠ "..") :
    ∃ pre post : List Char, g.home_team.data = pre ++ '.' :: post ∧ '.' ∉ post ∧
      pre ≠ [] ∧
      writeGamePath d g =
        ["out", "games", Nat.repr d, String.mk (pre ++ '.' :: String.data "json")] := by
  have hmem : '.' ∈ g.home_team.data := List.mem_of_mem_drop h
  obtain ⟨pre, post, hsplit, hpost, hls⟩ := lastDotSplit_spec _ hmem
  have hpre : pre ≠ [] := by
    intro hnil
    subst hnil
    simp only [List.nil_append] at hsplit
    rw [hsplit] at h
    simp only [List.drop_succ_cons, List.drop_zero] at h
    exact hpost h
  refine ⟨pre, post, hsplit, hpost, hpre, ?_⟩
  unfold writeGamePath setExtension
  rw [hls]
  dsimp only
  rw [if_neg (by simpa using hpre)]

/-- C10 witness: the amended theorem at homeTeamId "a.b" on day 3. -/
theorem c10_witness :
    ∃ pre post : List Char,
      (String.data "a.b") = pre ++ '.' :: post ∧ '.' ∉ post ∧ pre ≠ [] ∧
      writeGamePath 3 ⟨"g", "s", "at", "a.b", []⟩ =
        ["out", "games", Nat.repr 3, String.mk (pre ++ '.' :: String.data "json")] :=
  c10_dotted_home_team 3 ⟨"g", "s", "at", "a.b", []⟩ (by decide) (by decide) (by decide)

theorem perm_eq_of_len_le_one {α : Type} {l m r : List α}
    (h1 : l.Perm r) (h2 : m.Perm r) (hr : r.length ≤ 1) : l = m := by
  cases r with
  | nil => rw [List.perm_nil.mp h1, List.perm_nil.mp h2]
  | cons x xs =>
    cases xs with
    | nil => rw [List.perm_singleton.mp h1, List.perm_singleton.mp h2]
    | cons y ys => simp at hr

/-- C3 counterexample: on a record with two passthrough fields, the two
possible iteration orders of the `extra` map — both valid enumerations of
the same `HashMap` contents, which Rust's `RandomState` does not fix
across processes — serialize to different byte strings, so two runs over
byte-identical upstream responses need not produce byte-identical
files. -/
theorem c3_counterexample :
    ([("a", Json.num 0), ("b", Json.num 1)] : List (String × Json)).Perm
      (GameUpdate.extra ⟨"i", "s", "at", "ht", [("a", Json.num 0), ("b", Json.num 1)]⟩) ∧
    ([("b", Json.num 1), ("a", Json.num 0)] : List (String × Json)).Perm
      (GameUpdate.extra ⟨"i", "s", "at", "ht", [("a", Json.num 0), ("b", Json.num 1)]⟩) ∧
    serializeGameUpdate ⟨"i", "s", "at", "ht", [("a", Json.num 0), ("b", Json.num 1)]⟩
        [("a", Json.num 0), ("b", Json.num 1)] ≠
      serializeGameUpdate ⟨"i", "s", "at", "ht", [("a", Json.num 0), ("b", Json.num 1)]⟩
        [("b", Json.num 1), ("a", Json.num 0)] :=
  ⟨List.Perm.refl _, List.Perm.swap ("a", Json.num 0) ("b", Json.num 1) [], by decide⟩

/-- C3 (amended): re-running against byte-identical upstream responses
produces, for every record, the same serialized object up to the order
of its passthrough entries (the two runs' objects are permutations of
each other with the declared fields fixed in front), and byte-identical
files whenever the passthrough map's iteration order is the same in both
runs — guaranteed when each record has at most one passthrough field;
byte-identical output is not guaranteed beyond that, because the
`HashMap` iteration order is not a function of the record. -/
theorem c3_serialization_determinism (g : GameUpdate) (p : PlayerStatsheet)
    (o1 o2 o1' o2' : List (String × Json))
    (h1 : o1.Perm g.extra) (h2 : o2.Perm g.extra)
    (h1' : o1'.Perm p.extra) (h2' : o2'.Perm p.extra) :
    (gameUpdateObj g o1).Perm (gameUpdateObj g o2) ∧
    (playerObj p o1').Perm (playerObj p o2') ∧
    (g.extra.length ≤ 1 → serializeGameUpdate g o1 = serializeGameUpdate g o2) ∧
    (p.extra.length ≤ 1 → serializePlayer p o1' = serializePlayer p o2') := by
  refine ⟨List.Perm.append_left _ (h1.trans h2.symm),
          List.Perm.append_left _ (h1'.trans h2'.symm), ?_, ?_⟩
  · intro hlen
    rw [perm_eq_of_len_le_one h1 h2 hlen]
  · intro hlen
    rw [perm_eq_of_len_le_one h1' h2' hlen]

/-- C3 witness: the amended theorem at single-passthrough records. -/
theorem c3_witness :
    serializeGameUpdate ⟨"i", "s", "at", "ht", [("w", Json.num 7)]⟩ [("w", Json.num 7)] =
      serializeGameUpdate ⟨"i", "s", "at", "ht", [("w", Json.num 7)]⟩ [("w", Json.num 7)] ∧
    serializePlayer ⟨"i", "P", "T", []⟩ [] = serializePlayer ⟨"i", "P", "T", []⟩ [] :=
  ⟨(c3_serialization_determinism ⟨"i", "s", "at", "ht", [("w", Json.num 7)]⟩
      ⟨"i", "P", "T", []⟩ [("w", Json.num 7)] [("w", Json.num 7)] [] []
      (List.Perm.refl _) (List.Perm.refl _) (List.Perm.refl _) (List.Perm.refl _)).2.2.1
    (by decide),
   (c3_serialization_determinism ⟨"i", "s", "at", "ht", [("w", Json.num 7)]⟩
      ⟨"i", "P", "T", []⟩ [("w", Json.num 7)] [("w", Json.num 7)] [] []
      (List.Perm.refl _) (List.Perm.refl _) (List.Perm.refl _) (List.Perm.refl _)).2.2.2
    (by decide)⟩

/-- C7: for a GameUpdate or PlayerStatsheet deserialised from a JSON
object with distinct keys, every binding whose key is not a declared
schema name lands in the flattened `extra` map and reappears unchanged
(same key, same value) in the serialized object written to disk,
whatever iteration order the map is enumerated in; and a declared name
always takes precedence over a same-named passthrough key — the written
object's first binding for a schema key is the declared field's value,
which equals the fetched object's binding, and no schema key occurs in
the passthrough map at all. -/
theorem c7_passthrough_fidelity :
    (∀ (obj : List (String × Json)) (g : GameUpdate) (o : List (String × Json)),
      (obj.map Prod.fst).Nodup →
      parseGameUpdate obj = some g →
      o.Perm g.extra →
      (∀ k v, (k, v) ∈ obj → k ∉ gameSchema → (k, v) ∈ gameUpdateObj g o) ∧
      (∀ k, k ∈ gameSchema →
        lookupField (gameUpdateObj g o) k = lookupField obj k ∧ ∀ v, (k, v) ∉ g.extra)) ∧
    (∀ (obj : List (String × Json)) (p : PlayerStatsheet) (o : List (String × Json)),
      (obj.map Prod.fst).Nodup →
      parsePlayer obj = some p →
      o.Perm p.extra →
      (∀ k v, (k, v) ∈ obj → k ∉ playerSchema → (k, v) ∈ playerObj p o) ∧
      (∀ k, k ∈ playerSchema →
        lookupField (playerObj p o) k = lookupField obj k ∧ ∀ v, (k, v) ∉ p.extra)) := by
  constructor
  · intro obj g o _hnd hp hperm
    unfold parseGameUpdate at hp
    split at hp
    case _ i s a h hid hst haw hhm =>
      have hg := Option.some.inj hp
      subst hg
      constructor
      · intro k v hkv hks
        apply List.mem_append_right
        rw [hperm.mem_iff]
        simp only []
        rw [List.mem_filter]
        refine ⟨hkv, by simp [hks]⟩
      · intro k hk
        have hk' : k = "id" ∨ k = "statsheet" ∨ k = "awayTeam" ∨ k = "homeTeam" := by
          simpa [gameSchema] using hk
        constructor
        · rcases hk' with rfl | rfl | rfl | rfl
          · rw [hid]; simp [lookupField, gameUpdateObj, gameUpdateFields]
          · rw [hst]; simp [lookupField, gameUpdateObj, gameUpdateFields]
          · rw [haw]; simp [lookupField, gameUpdateObj, gameUpdateFields]
          · rw [hhm]; simp [lookupField, gameUpdateObj, gameUpdateFields]
        · intro v hv
          simp only [] at hv
          rw [List.mem_filter] at hv
          have := hv.2
          simp at this
          exact this hk
    case _ =>
      cases hp
  · intro obj p o _hnd hp hperm
    unfold parsePlayer at hp
    split at hp
    case _ i pl t hid hpl htm =>
      have hg := Option.some.inj hp
      subst hg
      constructor
      · intro k v hkv hks
        apply List.mem_append_right
        rw [hperm.mem_iff]
        simp only []
        rw [List.mem_filter]
        refine ⟨hkv, by simp [hks]⟩
      · intro k hk
        have hk' : k = "id" ∨ k = "playerId" ∨ k = "teamId" := by
          simpa [playerSchema] using hk
        constructor
        · rcases hk' with rfl | rfl | rfl
          · rw [hid]; simp [lookupField, playerObj, playerFields]
          · rw [hpl]; simp [lookupField, playerObj, playerFields]
          · rw [htm]; simp [lookupField, playerObj, playerFields]
        · intro v hv
          simp only [] at hv
          rw [List.mem_filter] at hv
          have := hv.2
          simp at this
          exact this hk
    case _ =>
      cases hp

/-- C7 witness: a game object with the passthrough field "weather" and a
player object with the passthrough field "position", both of which
reappear in the serialized output, with the declared "id" binding
preserved in front. -/
theorem c7_witness :
    ("weather", Json.num 7) ∈
      gameUpdateObj ⟨"i", "s", "a", "h", [("weather", Json.num 7)]⟩
        [("weather", Json.num 7)] ∧
    lookupField (gameUpdateObj ⟨"i", "s", "a", "h", [("weather", Json.num 7)]⟩
        [("weather", Json.num 7)]) "id" =
      lookupField [("id", Json.str "i"), ("statsheet", Json.str "s"),
        ("awayTeam", Json.str "a"), ("homeTeam", Json.str "h"),
        ("weather", Json.num 7)] "id" ∧
    ("position", Json.str "C") ∈
      playerObj ⟨"i", "P", "T", [("position", Json.str "C")]⟩
        [("position", Json.str "C")] := by
  have hg := (c7_passthrough_fidelity).1
      [("id", Json.str "i"), ("statsheet", Json.str "s"), ("awayTeam", Json.str "a"),
       ("homeTeam", Json.str "h"), ("weather", Json.num 7)]
      ⟨"i", "s", "a", "h", [("weather", Json.num 7)]⟩ [("weather", Json.num 7)]
      (by decide) rfl (List.Perm.refl _)
  have hp := (c7_passthrough_fidelity).2
      [("id", Json.str "i"), ("playerId", Json.str "P"), ("teamId", Json.str "T"),
       ("position", Json.str "C")]
      ⟨"i", "P", "T", [("position", Json.str "C")]⟩ [("position", Json.str "C")]
      (by decide) rfl (List.Perm.refl _)
  exact ⟨hg.1 "weather" (Json.num 7) (by simp) (by decide),
         (hg.2 "id" (by decide)).1,
         hp.1 "position" (Json.str "C") (by simp) (by decide)⟩

end StatsheetDumper
